import Mathlib

/-!
# Verification of the HR-WSI S3 downloader client

A shallow embedding, in Lean, of `s3_hrwsi_downloader.py`: the catalog data
model, the date-bounded listing algorithm of `execute_request`, the input
validators, the query artifact round-trip, and the per-product download retry
and exit-status logic, together with theorems about them.

The object store is external to the program: following the program's stated
precondition, a listing for a given key prefix seeded with a marker returns
exactly the stored objects whose key has that prefix and is strictly greater
than the marker in byte-wise lexicographic order.
-/

/-! ## Byte-wise lexicographic order on keys -/

/-- Lexicographic strict order on character lists, as the object store orders
its keys (compare code points position by position; a proper prefix is
smaller). -/
def lexLt : List Char → List Char → Bool
  | [], [] => false
  | [], _ :: _ => true
  | _ :: _, [] => false
  | a :: as, b :: bs => decide (a < b) || (decide (a = b) && lexLt as bs)

/-- Strict key order on strings. -/
def keyLt (a b : String) : Bool := lexLt a.data b.data

/-! ## Calendar dates

`datetime.date` restricts years to 1..9999; catalog observation dates have
four-digit years, which is what makes the unpadded `f"{date.year}"` in the
marker strings order correctly. -/

/-- A calendar date, as `datetime.date`. -/
structure SDate where
  year : Nat
  month : Nat
  day : Nat
deriving DecidableEq, Repr

/-- Gregorian leap year, as `calendar.isleap` / `datetime`. -/
def isLeap (y : Nat) : Bool := (y % 4 = 0 && y % 100 ≠ 0) || y % 400 = 0

/-- Number of days of a month. -/
def daysInMonth (y m : Nat) : Nat :=
  if m = 2 then (if isLeap y then 29 else 28)
  else if m = 4 || m = 6 || m = 9 || m = 11 then 30
  else 31

/-- A calendar date the embedding reasons about: a valid `datetime.date` with a
four-digit year (the catalog keys under scrutiny all carry four-digit years;
with fewer digits the unpadded year in the key would break the store's
lexicographic-order precondition). -/
def validDate (d : SDate) : Prop :=
  1000 ≤ d.year ∧ d.year ≤ 9999 ∧ 1 ≤ d.month ∧ d.month ≤ 12 ∧
    1 ≤ d.day ∧ d.day ≤ daysInMonth d.year d.month

instance (d : SDate) : Decidable (validDate d) := by
  unfold validDate; infer_instance

/-- `datetime.date` comparison: lexicographic on (year, month, day). -/
def dlt (a b : SDate) : Bool :=
  decide (a.year < b.year) ||
    (decide (a.year = b.year) &&
      (decide (a.month < b.month) ||
        (decide (a.month = b.month) && decide (a.day < b.day))))

/-- Non-strict `datetime.date` comparison. -/
def dle (a b : SDate) : Bool := dlt a b || decide (a = b)

/-- `d + datetime.timedelta(days=1)`. Adding one day to `datetime.date.max`
(9999-12-31) raises `OverflowError`, modelled as `none`. -/
def addOneDay (d : SDate) : Option SDate :=
  if d.day < daysInMonth d.year d.month then some ⟨d.year, d.month, d.day + 1⟩
  else if d.month < 12 then some ⟨d.year, d.month + 1, 1⟩
  else if d.year < 9999 then some ⟨d.year + 1, 1, 1⟩
  else none

/-! ## Decimal rendering of date components

`execute_request` renders markers with `f"{date.year}"` (unpadded; four digits
for the years considered here) and `date.strftime('%m')` / `%d` (two digits,
zero padded). -/

/-- The decimal digit character of `n % 10`. -/
def dChar (n : Nat) : Char :=
  if n = 1 then '1' else if n = 2 then '2' else if n = 3 then '3'
  else if n = 4 then '4' else if n = 5 then '5' else if n = 6 then '6'
  else if n = 7 then '7' else if n = 8 then '8' else if n = 9 then '9' else '0'

/-- Two-digit zero-padded decimal, as `strftime('%m')` / `strftime('%d')`. -/
def pad2 (n : Nat) : List Char := [dChar (n / 10), dChar (n % 10)]

/-- Four-digit decimal, the value of `f"{year}"` for 1000 ≤ year ≤ 9999. -/
def pad4 (n : Nat) : List Char :=
  [dChar (n / 1000), dChar (n / 100 % 10), dChar (n / 10 % 10), dChar (n % 10)]

/-- The date path segment `{date.year}/{date:%m}/{date:%d}` of the marker
strings built in `execute_request`. -/
def encDateL (d : SDate) : List Char :=
  pad4 d.year ++ '/' :: (pad2 d.month ++ '/' :: pad2 d.day)

/-- String form of `encDateL`. -/
def encDate (d : SDate) : String := ⟨encDateL d⟩

/-! ## The object store

`HRWSIRequest` talks to the bucket through `boto3`; the store itself is
external. Its listing operation is embedded by its contract: ascending
byte-wise lexicographic key order, keys restricted to the requested prefix,
starting strictly after the marker key. -/

/-- A stored object: key and byte size (`ObjectSummary.key` / `.size`). -/
structure S3Obj where
  key : String
  size : Nat
deriving DecidableEq, Repr

/-- `p` is a key-prefix of `s` (the `Prefix=` filter of a listing). -/
def isPref (p s : String) : Bool := p.data.isPrefixOf s.data

/-- `Bucket(...).objects.filter(Prefix=pfx, Marker=marker)`: the stored objects
whose key extends `pfx` and is strictly greater than `marker`. -/
def listObjects (store : List S3Obj) (pfx marker : String) : List S3Obj :=
  store.filter (fun o => isPref pfx o.key && lexLt marker.data o.key.data)

/-- `Bucket(...).objects.filter(Prefix=pfx)` with no marker. -/
def listObjectsPref (store : List S3Obj) (pfx : String) : List S3Obj :=
  store.filter (fun o => isPref pfx o.key)

/-! ## Small pieces of the Python runtime used by the program -/

/-- `os.path.dirname`: everything up to the final path separator, with the
trailing separator run stripped unless the result consists only of
separators. -/
def dirnameL (l : List Char) : List Char :=
  let head := (l.reverse.dropWhile (fun c => c ≠ '/')).reverse
  if head.isEmpty || head.all (fun c => c = '/') then head
  else (head.reverse.dropWhile (fun c => c = '/')).reverse

/-- `os.path.dirname` on strings. -/
def dirname (s : String) : String := ⟨dirnameL s.data⟩

/-- The accumulation `if product not in list_products: list_products.append(product)`
run over a whole list: keep the first occurrence of each element. -/
def pyDedup (l : List String) : List String :=
  l.foldl (fun acc p => if p ∈ acc then acc else acc ++ [p]) []

/-- Python whitespace for `str.strip`. -/
def pySpace (c : Char) : Bool :=
  c = ' ' || c = '\t' || c = '\n' || c = '\r' || c = '\x0b' || c = '\x0c'

/-- `str.strip()`: remove leading and trailing whitespace. -/
def pyStrip (s : String) : String :=
  ⟨((s.data.dropWhile pySpace).reverse.dropWhile pySpace).reverse⟩

/-- `file.readlines()` applied to the file content: split after each newline,
keeping the newline characters. -/
def pyReadlinesAux : List Char → List Char → List (List Char)
  | [], acc => if acc.isEmpty then [] else [acc.reverse]
  | c :: cs, acc =>
    if c = '\n' then (acc.reverse ++ ['\n']) :: pyReadlinesAux cs []
    else pyReadlinesAux cs (c :: acc)

/-- `file.readlines()` on a file holding `s`. -/
def pyReadlines (s : String) : List String :=
  (pyReadlinesAux s.data []).map (fun l => ⟨l⟩)

/-- The argument given to `sys.exit`. -/
inductive ExitArg where
  | int (n : Int)
  | str (s : String)
deriving DecidableEq, Repr

/-- Process exit status produced by `sys.exit(arg)`: an integer argument is the
exit status itself (reported here as the Python-level integer); any other
object — such as the string `"-2"` — is printed to stderr and the process
exits with status 1. -/
def sysExitStatus : ExitArg → Int
  | .int n => n
  | .str _ => 1

/-- The exceptions that matter to `download_from_s3` and its callers. -/
inductive PyExc where
  | clientError (code : String)
  | endpointConnectionError
  | fileNotFoundError
  | runtimeError (msg : String)
  | unboundLocalError
  | systemExit (arg : ExitArg)
deriving DecidableEq, Repr

deriving instance DecidableEq for Except

/-- Exit status of the interpreter when a computation ends with `exc`:
`SystemExit` carries its argument's status; any other uncaught exception
prints a traceback and exits with status 1; normal completion exits 0. -/
def processExit : Option PyExc → Int
  | none => 0
  | some (.systemExit a) => sysExitStatus a
  | some _ => 1

/-! ## Input validators (`HRWSIRequest.validate_*`) -/

/-- `validate_product_type`: the type is valid iff the bucket holds at least
one key under `product_type + "/"`; otherwise `sys.exit("-2")` — note the
string argument. -/
def validate_product_type (store : List S3Obj) (product_type : String) :
    Except ExitArg String :=
  if (listObjectsPref store (product_type ++ "/")).isEmpty then
    .error (.str "-2")
  else .ok product_type

/-- Value of a decimal digit character. -/
def digitVal (c : Char) : Nat := c.toNat - 48

/-- Value of a decimal digit string. -/
def parseNatDigits (l : List Char) : Nat :=
  l.foldl (fun a c => 10 * a + digitVal c) 0

/-- Split a character list on `'-'`, keeping empty fragments. -/
def splitDashAux : List Char → List Char → List (List Char)
  | [], acc => [acc.reverse]
  | c :: cs, acc =>
    if c = '-' then acc.reverse :: splitDashAux cs []
    else splitDashAux cs (c :: acc)

/-- `datetime.datetime.strptime(s, '%Y-%m-%d')`: four year digits, dash, one
or two month digits, dash, one or two day digits, and the resulting calendar
date must exist (else `ValueError`). -/
def parseDate (s : String) : Option SDate :=
  match splitDashAux s.data [] with
  | [ys, ms, ds] =>
    if ys.length = 4 && ys.all Char.isDigit &&
        1 ≤ ms.length && ms.length ≤ 2 && ms.all Char.isDigit &&
        1 ≤ ds.length && ds.length ≤ 2 && ds.all Char.isDigit then
      let y := parseNatDigits ys
      let m := parseNatDigits ms
      let d := parseNatDigits ds
      if 1 ≤ m && m ≤ 12 && 1 ≤ d && d ≤ daysInMonth y m then some ⟨y, m, d⟩
      else none
    else none
  | _ => none

/-- `validate_dates`: both dates must parse with `strptime` and satisfy
`dateStart ≤ dateEnd`; any failure is `sys.exit(-2)` — an integer here. -/
def validate_dates (dateStart dateEnd : String) :
    Except ExitArg (String × String) :=
  match parseDate dateStart, parseDate dateEnd with
  | some ds, some de =>
    if dlt de ds then .error (.int (-2)) else .ok (dateStart, dateEnd)
  | _, _ => .error (.int (-2))

/-- One candidate window of `re.search(r'\d{2}[A-Z]{3}', ...)`. -/
def tileAt (c0 c1 c2 c3 c4 : Char) : Bool :=
  c0.isDigit && c1.isDigit &&
    (decide ('A' ≤ c2) && decide (c2 ≤ 'Z')) &&
    (decide ('A' ≤ c3) && decide (c3 ≤ 'Z')) &&
    (decide ('A' ≤ c4) && decide (c4 ≤ 'Z'))

/-- `re.search(r'\d{2}[A-Z]{3}', text)`: the first five-character window
matching two decimal digits followed by three uppercase letters. -/
def reSearchTile : List Char → Option (List Char)
  | c0 :: c1 :: c2 :: c3 :: c4 :: rest =>
    if tileAt c0 c1 c2 c3 c4 then some [c0, c1, c2, c3, c4]
    else reSearchTile (c1 :: c2 :: c3 :: c4 :: rest)
  | _ => none

/-- `validate_tile_format`: keep the matched group when the text is five
characters long, or six characters starting with `'T'`; otherwise
`sys.exit(-2)`. -/
def validate_tile_format (tile_text : String) : Except ExitArg String :=
  match reSearchTile tile_text.data with
  | some m =>
    if (tile_text.length = 6 && tile_text.data.head? = some 'T') ||
        tile_text.length = 5 then .ok ⟨m⟩
    else .error (.int (-2))
  | none => .error (.int (-2))

/-- Outcome of the external geopandas/shapely/pyproj calls inside
`validate_wkt_epsg`. -/
inductive GeoOutcome where
  | ok (geomType : String)
  | crsError
  | geosError
deriving DecidableEq, Repr

/-- `validate_wkt_epsg`: a CRS or geometry construction error, or a geometry
type other than Polygon/MultiPolygon, is `sys.exit("-2")` — a string again. -/
def validate_wkt_epsg (res : GeoOutcome) (epsg_text wkt_text : String) :
    Except ExitArg (String × String) :=
  match res with
  | .crsError => .error (.str "-2")
  | .geosError => .error (.str "-2")
  | .ok geomType =>
    if geomType = "MultiPolygon" || geomType = "Polygon" then
      .ok (epsg_text, wkt_text)
    else .error (.str "-2")

/-- `validate_MGRS_file` / `validate_layer` failure: reading the vector or
grid file raised, and the handler calls `sys.exit("-2")` — a string. -/
def vectorReadFailureExit : ExitArg := .str "-2"

/-- `str.upper()` (the tile identifiers are ASCII). -/
def pyUpper (s : String) : String := ⟨s.data.map Char.toUpper⟩

/-- The `tiles` branch of `build_query`: validate and uppercase every tile,
`sys.exit(-2)` when the list is empty, then `list(set(...))` — modelled as
keeping the first occurrence of each tile, since only the set matters. -/
def resolveTiles (tiles : List String) : Except ExitArg (List String) := do
  let vs ← tiles.mapM (fun t => (validate_tile_format t).map pyUpper)
  if vs.length = 0 then .error (.int (-2)) else pure (pyDedup vs)

/-! ## `execute_request` — the date-bounded listing and the query artifact -/

/-- Download threshold (`HRWSIRequest.DOWNLOAD_THRESHOLD`). -/
def DOWNLOAD_THRESHOLD : Nat := 500

/-- The inner loop body of `execute_request` for one `(productType, tile)`
pair: two marker-seeded listings and their difference.  `item not in
contents_filter` compares boto3 `ObjectSummary` values by their identifiers,
that is, by key. -/
def dateBoundedContents (store : List S3Obj) (pT tile : String)
    (start_marker_date end_marker_date : SDate) : List S3Obj :=
  let marker_start := pT ++ "/" ++ tile ++ "/" ++ encDate start_marker_date
  let marker_end := pT ++ "/" ++ tile ++ "/" ++ encDate end_marker_date
  let pfx := pT ++ "/" ++ tile
  let contents_to_filter := listObjects store pfx marker_start
  let contents_filter := listObjects store pfx marker_end
  contents_to_filter.filter
    (fun item => !(contents_filter.any (fun o => o.key = item.key)))

/-- The distinct product directories of one `(productType, tile)` listing, in
first-seen order. -/
def listProductsOf (contents : List S3Obj) : List String :=
  pyDedup (contents.map (fun content => dirname content.key))

/-- Byte total of one listing. -/
def sizeOfContents (contents : List S3Obj) : Nat :=
  (contents.map (fun content => content.size)).sum

/-- What the file `query_file.txt` holds after
`f.writelines([res + "\n" for res in total_list_products])`. -/
def writeArtifact (total_list_products : List String) : String :=
  String.join (total_list_products.map (fun res => res ++ "\n"))

/-- Result of `execute_request`. -/
structure QueryOutcome where
  total_list_products : List String
  total_size_b : Nat
  threshold_warning : Bool
  artifact : String
deriving DecidableEq, Repr

/-- `execute_request`: for each requested product type and each tile,
accumulate the product directories and byte totals of the date-bounded
listing; warn (non-fatally) past the download threshold; always write the
whole product list to the artifact.  Computing `end_date + timedelta(days=1)`
raises `OverflowError` on `datetime.date.max`, so the whole call is `none`
then. -/
def execute_request (store : List S3Obj) (productTypes tiles : List String)
    (start_date end_date : SDate) : Option QueryOutcome :=
  match addOneDay end_date with
  | none => none
  | some end_marker_date =>
    let total_list_products := productTypes.flatMap (fun pT =>
      tiles.flatMap (fun tile =>
        listProductsOf (dateBoundedContents store pT tile start_date end_marker_date)))
    let total_size_b := (productTypes.map (fun pT =>
      (tiles.map (fun tile =>
        sizeOfContents (dateBoundedContents store pT tile start_date end_marker_date))).sum)).sum
    some { total_list_products := total_list_products
           total_size_b := total_size_b
           threshold_warning := decide (total_list_products.length > DOWNLOAD_THRESHOLD)
           artifact := writeArtifact total_list_products }

/-! ## `download` — artifact reading and the threshold gate -/

/-- Reading the query file back:
`[x.strip() for x in content if x.strip()]`. -/
def readArtifact (content : String) : List String :=
  ((pyReadlines content).map pyStrip).filter (fun x => x ≠ "")

/-- `download` up to the per-product loop.  `query_file = none` models an
unset query file (`sys.exit(-2)`); past the threshold the bare `raise` outside
any except block raises `RuntimeError: No active exception to re-raise` and
nothing is transferred; otherwise the returned list is exactly the products
handed to `download_from_s3`, in order. -/
def download (query_file : Option String) : Except PyExc (List String) :=
  match query_file with
  | none => .error (.systemExit (.int (-2)))
  | some content =>
    let product_list := readArtifact content
    if product_list.length > DOWNLOAD_THRESHOLD then
      .error (.runtimeError "No active exception to re-raise")
    else .ok product_list

/-! ## `download_from_s3` — per-product transfer, classification, retry

The body is a `try/except*/finally`.  Python clears and deletes an
`except ... as err` binding when the except clause exits — even when it exits
by raising — so after any handled failure the `finally` block's `if err`
reads an unbound local and raises `UnboundLocalError`, replacing the
`RuntimeError` the handler just raised; none of the `sys.exit` calls in the
`finally` block is reachable.  On success `err` is still `None` and the
`finally` block does nothing. -/

/-- One execution of the body of `download_from_s3`: `attempt` is what the S3
interaction inside the `try` does (`none` = all layers transferred). -/
def download_from_s3_once (attempt : Option PyExc) : Option PyExc :=
  match attempt with
  | none => none
  | some (.clientError _) => some .unboundLocalError
  | some .endpointConnectionError => some .unboundLocalError
  | some .fileNotFoundError => some .unboundLocalError
  | some e => some e

/-- `@retry(EndpointConnectionError, tries=3, delay=2)`: call the function;
while it raises `EndpointConnectionError` and tries remain, sleep `delay`
seconds and call it again.  Returns the final outcome, the number of calls
made, and the seconds slept. -/
def retryCall (f : Nat → Option PyExc) :
    Nat → Nat → Nat → Option PyExc × Nat × Nat
  | 0, calls, slept => (some .endpointConnectionError, calls, slept)
  | tries + 1, calls, slept =>
    match f calls with
    | some .endpointConnectionError =>
      if tries = 0 then (some .endpointConnectionError, calls + 1, slept)
      else retryCall f tries (calls + 1) (slept + 2)
    | r => (r, calls + 1, slept)

/-- The decorated `download_from_s3` for one product: `s3 k` is the behaviour
of the S3 interaction on call number `k`. -/
def download_from_s3 (s3 : Nat → Option PyExc) : Option PyExc × Nat × Nat :=
  retryCall (fun k => download_from_s3_once (s3 k)) 3 0 0

/-! ## Shapes of well-formed catalog keys -/

/-- A well-formed catalog key
`{productType}/{tile}/{year}/{month}/{day}/{productName}/{fileName}`:
the part after the date is arbitrary. -/
def mkKey (pT tile : String) (d : SDate) (rest : String) : String :=
  pT ++ "/" ++ tile ++ "/" ++ encDate d ++ "/" ++ rest

/-- What the store may hold under the listing prefix `{pT}/{tile}`: either a
well-formed catalog key of that product type and tile (with a valid,
four-digit-year observation date), or a key that merely extends the
characters of the prefix without opening a new path segment (for example a
key of tile `31TCHX` seen under the prefix of tile `31TCH`). -/
def keyOk (pT tile : String) (key : String) : Prop :=
  (∃ d rest, validDate d ∧
      key.data = pT.data ++ '/' :: (tile.data ++ '/' :: (encDateL d ++ '/' :: rest))) ∨
  (pT.data ++ '/' :: (tile.data ++ ['/'])).isPrefixOf key.data = false

/-- First path segment of a product directory. -/
def seg1 (l : List Char) : List Char := l.takeWhile (fun c => c ≠ '/')

/-- Second path segment of a product directory. -/
def seg2 (l : List Char) : List Char :=
  (((l.dropWhile (fun c => c ≠ '/')).drop 1).takeWhile (fun c => c ≠ '/'))

/-! ## Tile lexical patterns (for the tile-resolution theorems) -/

/-- A bare five-character tile identifier: two digits, three uppercase
letters. -/
def coreTileL (l : List Char) : Bool :=
  match l with
  | [c0, c1, c2, c3, c4] => tileAt c0 c1 c2 c3 c4
  | _ => false

/-- The accepted tile lexical pattern: `##XXX`, optionally prefixed with `T`
(total length five or six). -/
def tilePattern (s : String) : Bool :=
  coreTileL s.data ||
    (match s.data with
     | c :: rest => decide (c = 'T') && coreTileL rest
     | [] => false)

/-- Drop the optional leading `T` of a six-character tile identifier. -/
def stripT (s : String) : String :=
  if s.data.length = 6 then ⟨s.data.drop 1⟩ else s

/-! ## Concrete data for the witnesses -/

/-- The simulated catalog of the specification's end-to-end scenario. -/
def demoStore : List S3Obj :=
  [⟨"FSC/31TCH/2025/02/01/P1/a.tif", 10⟩,
   ⟨"FSC/31TCH/2025/02/02/P2/b.tif", 20⟩,
   ⟨"FSC/31TCH/2025/02/04/P3/c.tif", 30⟩]

/-- An artifact with `n` one-character product lines. -/
def smallArtifact (n : Nat) : String := writeArtifact (List.replicate n "p")

/-! # Theorems

## Lexicographic order: basic lemmas -/

theorem lexLt_append_left (p x y : List Char) :
    lexLt (p ++ x) (p ++ y) = lexLt x y := by
  induction p with
  | nil => rfl
  | cons a p ih => simp [lexLt, ih, lt_irrefl]

theorem lexLt_append_eqlen (x : List Char) :
    ∀ y r s : List Char, x.length = y.length →
      lexLt (x ++ r) (y ++ s) =
        (lexLt x y || (decide (x = y) && lexLt r s)) := by
  induction x with
  | nil =>
    intro y r s h
    cases y with
    | nil => simp [lexLt]
    | cons b y => simp at h
  | cons a x ih =>
    intro y r s h
    cases y with
    | nil => simp at h
    | cons b y =>
      have h' : x.length = y.length := by simpa using h
      by_cases heq : a = b
      · subst heq
        simp [lexLt, lt_irrefl, ih y r s h']
      · by_cases hab : a < b <;> simp [lexLt, hab, heq, ih y r s h']

theorem lexLt_nil_cons (c : Char) (l : List Char) :
    lexLt [] (c :: l) = true := rfl

/-! ## Digit strings order like the numbers they render -/

theorem dChar_lt_iff : ∀ a, a < 10 → ∀ b, b < 10 →
    ((dChar a < dChar b) ↔ a < b) := by decide

theorem dChar_eq_iff : ∀ a, a < 10 → ∀ b, b < 10 →
    ((dChar a = dChar b) ↔ a = b) := by decide

theorem dChar_ne_slash (a : Nat) : dChar a ≠ '/' := by
  unfold dChar
  repeat' split
  all_goals decide

theorem pad2_lexLt (a b : Nat) (ha : a < 100) (hb : b < 100) :
    lexLt (pad2 a) (pad2 b) = decide (a < b) := by
  have h1 : a / 10 < 10 := by omega
  have h2 : b / 10 < 10 := by omega
  have h3 : a % 10 < 10 := by omega
  have h4 : b % 10 < 10 := by omega
  rw [Bool.eq_iff_iff]
  simp only [pad2, lexLt, Bool.or_eq_true, Bool.and_eq_true, decide_eq_true_eq,
    dChar_lt_iff _ h1 _ h2, dChar_eq_iff _ h1 _ h2, dChar_lt_iff _ h3 _ h4,
    Bool.false_eq_true, and_false, or_false]
  omega

theorem pad2_eq_iff (a b : Nat) (ha : a < 100) (hb : b < 100) :
    pad2 a = pad2 b ↔ a = b := by
  have h1 : a / 10 < 10 := by omega
  have h2 : b / 10 < 10 := by omega
  have h3 : a % 10 < 10 := by omega
  have h4 : b % 10 < 10 := by omega
  simp only [pad2, List.cons.injEq, and_true,
    dChar_eq_iff _ h1 _ h2, dChar_eq_iff _ h3 _ h4]
  omega

theorem pad4_lexLt (a b : Nat) (ha : a < 10000) (hb : b < 10000) :
    lexLt (pad4 a) (pad4 b) = decide (a < b) := by
  have h1 : a / 1000 < 10 := by omega
  have h2 : b / 1000 < 10 := by omega
  have h3 : a / 100 % 10 < 10 := by omega
  have h4 : b / 100 % 10 < 10 := by omega
  have h5 : a / 10 % 10 < 10 := by omega
  have h6 : b / 10 % 10 < 10 := by omega
  have h7 : a % 10 < 10 := by omega
  have h8 : b % 10 < 10 := by omega
  rw [Bool.eq_iff_iff]
  simp only [pad4, lexLt, Bool.or_eq_true, Bool.and_eq_true, decide_eq_true_eq,
    dChar_lt_iff _ h1 _ h2, dChar_eq_iff _ h1 _ h2,
    dChar_lt_iff _ h3 _ h4, dChar_eq_iff _ h3 _ h4,
    dChar_lt_iff _ h5 _ h6, dChar_eq_iff _ h5 _ h6,
    dChar_lt_iff _ h7 _ h8, Bool.false_eq_true, and_false, or_false]
  omega

theorem pad4_eq_iff (a b : Nat) (ha : a < 10000) (hb : b < 10000) :
    pad4 a = pad4 b ↔ a = b := by
  have h1 : a / 1000 < 10 := by omega
  have h2 : b / 1000 < 10 := by omega
  have h3 : a / 100 % 10 < 10 := by omega
  have h4 : b / 100 % 10 < 10 := by omega
  have h5 : a / 10 % 10 < 10 := by omega
  have h6 : b / 10 % 10 < 10 := by omega
  have h7 : a % 10 < 10 := by omega
  have h8 : b % 10 < 10 := by omega
  simp only [pad4, List.cons.injEq, and_true,
    dChar_eq_iff _ h1 _ h2, dChar_eq_iff _ h3 _ h4,
    dChar_eq_iff _ h5 _ h6, dChar_eq_iff _ h7 _ h8]
  omega

/-! ## The rendered date segment orders like the date -/

theorem encDateL_length (d : SDate) : (encDateL d).length = 10 := by
  simp [encDateL, pad4, pad2]

theorem daysInMonth_le (y m : Nat) : daysInMonth y m ≤ 31 := by
  unfold daysInMonth
  repeat' split
  all_goals omega

theorem daysInMonth_pos (y m : Nat) : 1 ≤ daysInMonth y m := by
  unfold daysInMonth
  repeat' split
  all_goals omega

theorem encDateL_lexLt (d1 d2 : SDate)
    (h1 : validDate d1) (h2 : validDate d2) :
    lexLt (encDateL d1) (encDateL d2) = dlt d1 d2 := by
  obtain ⟨hy1, hy1', hm1, hm1', hd1, hd1'⟩ := h1
  obtain ⟨hy2, hy2', hm2, hm2', hd2, hd2'⟩ := h2
  have hdm1 := daysInMonth_le d1.year d1.month
  have hdm2 := daysInMonth_le d2.year d2.month
  unfold encDateL
  rw [lexLt_append_eqlen _ _ _ _ (by simp [pad4])]
  have hc : lexLt ('/' :: (pad2 d1.month ++ '/' :: pad2 d1.day))
      ('/' :: (pad2 d2.month ++ '/' :: pad2 d2.day)) =
      lexLt (pad2 d1.month ++ '/' :: pad2 d1.day)
        (pad2 d2.month ++ '/' :: pad2 d2.day) := by
    simp [lexLt, lt_irrefl]
  rw [hc, lexLt_append_eqlen _ _ _ _ (by simp [pad2])]
  have hc2 : lexLt ('/' :: pad2 d1.day) ('/' :: pad2 d2.day) =
      lexLt (pad2 d1.day) (pad2 d2.day) := by
    simp [lexLt, lt_irrefl]
  rw [hc2]
  rw [pad4_lexLt _ _ (by omega) (by omega),
    pad2_lexLt _ _ (by omega) (by omega),
    pad2_lexLt _ _ (by omega) (by omega),
    decide_eq_decide.mpr (pad4_eq_iff d1.year d2.year (by omega) (by omega)),
    decide_eq_decide.mpr (pad2_eq_iff d1.month d2.month (by omega) (by omega))]
  rfl

theorem encDateL_eq_iff (d1 d2 : SDate)
    (h1 : validDate d1) (h2 : validDate d2) :
    encDateL d1 = encDateL d2 ↔ d1 = d2 := by
  obtain ⟨hy1, hy1', hm1, hm1', hd1, hd1'⟩ := h1
  obtain ⟨hy2, hy2', hm2, hm2', hd2, hd2'⟩ := h2
  have hdm1 := daysInMonth_le d1.year d1.month
  have hdm2 := daysInMonth_le d2.year d2.month
  unfold encDateL
  constructor
  · intro h
    obtain ⟨hp4, hrest⟩ := List.append_inj h (by simp [pad4])
    obtain ⟨hp2, hrest2⟩ := List.append_inj (by simpa using hrest) (by simp [pad2])
    have hday : pad2 d1.day = pad2 d2.day := by simpa using hrest2
    have := (pad4_eq_iff d1.year d2.year (by omega) (by omega)).mp hp4
    have := (pad2_eq_iff d1.month d2.month (by omega) (by omega)).mp hp2
    have := (pad2_eq_iff d1.day d2.day (by omega) (by omega)).mp hday
    cases d1; cases d2
    simp_all
  · intro h; rw [h]

/-! ## Marker comparisons and date successor -/

theorem lexLt_marker (P : List Char) (ds d : SDate) (rest : List Char)
    (hds : validDate ds) (hd : validDate d) :
    lexLt (P ++ encDateL ds) (P ++ (encDateL d ++ '/' :: rest)) = dle ds d := by
  rw [lexLt_append_left]
  have h := lexLt_append_eqlen (encDateL ds) (encDateL d) [] ('/' :: rest)
    (by rw [encDateL_length, encDateL_length])
  rw [List.append_nil] at h
  rw [h, encDateL_lexLt _ _ hds hd,
    show (decide (encDateL ds = encDateL d)) = (decide (ds = d)) from by
      simp [encDateL_eq_iff _ _ hds hd]]
  simp [lexLt, dle]

theorem dlt_eq_false_iff (a b : SDate) : dlt a b = false ↔ dle b a = true := by
  cases a; cases b
  simp only [dlt, dle, Bool.or_eq_true, Bool.and_eq_true, decide_eq_true_eq,
    Bool.or_eq_false_iff, Bool.and_eq_false_iff, decide_eq_false_iff_not,
    SDate.mk.injEq]
  omega

theorem dle_antisymm (a b : SDate) (h1 : dle a b = true) (h2 : dle b a = true) :
    a = b := by
  cases a; cases b
  simp only [dle, dlt, Bool.or_eq_true, Bool.and_eq_true, decide_eq_true_eq,
    SDate.mk.injEq] at h1 h2 ⊢
  omega

theorem addOneDay_valid (e e' : SDate) (he : validDate e)
    (h : addOneDay e = some e') : validDate e' := by
  obtain ⟨hy, hy', hm, hm', hd, hd'⟩ := he
  unfold addOneDay at h
  have h28 := daysInMonth_pos e.year e.month
  split at h
  · obtain rfl := Option.some_inj.mp h
    rename_i hlt
    unfold validDate
    dsimp only
    omega
  · split at h
    · obtain rfl := Option.some_inj.mp h
      have hp2 := daysInMonth_pos e.year (e.month + 1)
      unfold validDate
      dsimp only
      omega
    · split at h
      · obtain rfl := Option.some_inj.mp h
        have hp3 := daysInMonth_pos (e.year + 1) 1
        unfold validDate
        dsimp only
        omega
      · exact absurd h (by simp)

theorem dle_addOneDay (e e' d : SDate) (he : validDate e) (hd : validDate d)
    (h : addOneDay e = some e') : dle e' d = dlt e d := by
  obtain ⟨hey, hey', hem, hem', hed, hed'⟩ := he
  obtain ⟨hdy, hdy', hdm, hdm', hdd, hdd'⟩ := hd
  rw [Bool.eq_iff_iff]
  unfold addOneDay at h
  split at h
  · obtain rfl := Option.some.injEq .. ▸ h.symm
    cases e; cases d
    simp only [dle, dlt, Bool.or_eq_true, Bool.and_eq_true, decide_eq_true_eq,
      SDate.mk.injEq] at *
    omega
  · split at h
    · obtain rfl := Option.some.injEq .. ▸ h.symm
      rename_i hday hmon
      by_cases hsame : d.year = e.year ∧ d.month = e.month
      · have : d.day ≤ e.day := by
          have := hdd'
          rw [hsame.1, hsame.2] at this
          omega
        cases e; cases d
        simp only [dle, dlt, Bool.or_eq_true, Bool.and_eq_true,
          decide_eq_true_eq, SDate.mk.injEq] at *
        omega
      · cases e; cases d
        simp only [dle, dlt, Bool.or_eq_true, Bool.and_eq_true,
          decide_eq_true_eq, SDate.mk.injEq, not_and] at *
        omega
    · split at h
      · obtain rfl := Option.some.injEq .. ▸ h.symm
        rename_i hday hmon hyear
        have hem12 : e.month = 12 := by omega
        have he31 : e.day = daysInMonth e.year e.month := by omega
        by_cases hsame : d.year = e.year ∧ d.month = e.month
        · have : d.day ≤ e.day := by
            have := hdd'
            rw [hsame.1, hsame.2] at this
            omega
          cases e; cases d
          simp only [dle, dlt, Bool.or_eq_true, Bool.and_eq_true,
            decide_eq_true_eq, SDate.mk.injEq] at *
          omega
        · cases e; cases d
          simp only [dle, dlt, Bool.or_eq_true, Bool.and_eq_true,
            decide_eq_true_eq, SDate.mk.injEq, not_and] at *
          omega
      · exact absurd h (by simp)

/-! ## Membership in the two-listing difference -/

theorem str_data_append (s t : String) : (s ++ t).data = s.data ++ t.data := rfl

theorem mkKey_data (pT tile : String) (d : SDate) (rest : String) :
    (mkKey pT tile d rest).data =
      pT.data ++ '/' :: (tile.data ++ '/' :: (encDateL d ++ '/' :: rest.data)) := by
  simp [mkKey, encDate, str_data_append, List.append_assoc]

theorem mem_dateBoundedContents (store : List S3Obj) (pT tile : String)
    (sd ed emd : SDate) (hsd : validDate sd) (hed : validDate ed)
    (hemd : addOneDay ed = some emd)
    (hwf : ∀ o ∈ store, isPref (pT ++ "/" ++ tile) o.key = true →
      keyOk pT tile o.key) (o : S3Obj) :
    o ∈ dateBoundedContents store pT tile sd emd ↔
      o ∈ store ∧ ∃ d rest, validDate d ∧ o.key = mkKey pT tile d rest ∧
        dle sd d = true ∧ dle d ed = true := by
  have hemdv : validDate emd := addOneDay_valid ed emd hed hemd
  have hP : (pT ++ "/" ++ tile ++ "/").data =
      (pT ++ "/" ++ tile).data ++ ['/'] := rfl
  have hms : (pT ++ "/" ++ tile ++ "/" ++ encDate sd).data =
      (pT ++ "/" ++ tile ++ "/").data ++ encDateL sd := rfl
  have hme : (pT ++ "/" ++ tile ++ "/" ++ encDate emd).data =
      (pT ++ "/" ++ tile ++ "/").data ++ encDateL emd := rfl
  have hkeyshape : ∀ d : SDate, ∀ r : List Char,
      pT.data ++ '/' :: (tile.data ++ '/' :: (encDateL d ++ '/' :: r)) =
        (pT ++ "/" ++ tile ++ "/").data ++ (encDateL d ++ '/' :: r) := by
    intro d r
    simp [str_data_append, List.append_assoc]
  unfold dateBoundedContents listObjects
  simp only [List.mem_filter, Bool.and_eq_true, Bool.not_eq_true',
    List.any_eq_false, decide_eq_false_iff_not, decide_eq_true_eq]
  constructor
  · rintro ⟨⟨ho, hpref, hlt1⟩, hno⟩
    refine ⟨ho, ?_⟩
    rcases hwf o ho hpref with ⟨d, rest, hvd, hdata⟩ | hb
    · have hdata' : o.key.data =
          (pT ++ "/" ++ tile ++ "/").data ++ (encDateL d ++ '/' :: rest) := by
        rw [hdata, hkeyshape]
      have hlt1' : dle sd d = true := by
        rw [hms, hdata', lexLt_marker _ _ _ _ hsd hvd] at hlt1
        exact hlt1
      have hlt2 : dle emd d = false := by
        by_contra hc
        have hc' : dle emd d = true := by
          revert hc; cases dle emd d <;> simp
        refine hno o ⟨ho, hpref, ?_⟩ rfl
        rw [hme, hdata', lexLt_marker _ _ _ _ hemdv hvd]
        exact hc'
      refine ⟨d, ⟨rest⟩, hvd, ?_, hlt1', ?_⟩
      · refine String.ext ?_
        rw [mkKey_data, hdata]
      · rw [dle_addOneDay ed emd d hed hvd hemd] at hlt2
        exact (dlt_eq_false_iff ed d).mp hlt2
    · exfalso
      have hbshape : pT.data ++ '/' :: (tile.data ++ ['/']) =
          (pT ++ "/" ++ tile).data ++ ['/'] := by
        simp [str_data_append, List.append_assoc]
      have hb' : ¬ (((pT ++ "/" ++ tile).data ++ ['/']) <+: o.key.data) := by
        intro hpre
        rw [← hbshape, ← List.isPrefixOf_iff_prefix] at hpre
        rw [hpre] at hb
        exact Bool.true_eq_false.mp hb
      obtain ⟨tail, htail⟩ := List.isPrefixOf_iff_prefix.mp hpref
      have hm1 : lexLt (pT ++ "/" ++ tile ++ "/" ++ encDate sd).data o.key.data
          = lexLt ('/' :: encDateL sd) tail := by
        rw [hms, hP, ← htail, List.append_assoc, lexLt_append_left]
        rfl
      have hm2 : lexLt (pT ++ "/" ++ tile ++ "/" ++ encDate emd).data o.key.data
          = lexLt ('/' :: encDateL emd) tail := by
        rw [hme, hP, ← htail, List.append_assoc, lexLt_append_left]
        rfl
      cases tail with
      | nil =>
        rw [hm1] at hlt1
        exact Bool.false_ne_true hlt1
      | cons c t =>
        by_cases hc : c = '/'
        · subst hc
          refine hb' ⟨t, ?_⟩
          rw [← htail, List.append_assoc]
          rfl
        · have hslash : decide ('/' = c) = false := by
            simp [Ne.symm hc]
          have hv1 : lexLt ('/' :: encDateL sd) (c :: t) = decide ('/' < c) := by
            simp [lexLt, hslash]
          have hv2 : lexLt ('/' :: encDateL emd) (c :: t) = decide ('/' < c) := by
            simp [lexLt, hslash]
          refine hno o ⟨ho, hpref, ?_⟩ rfl
          rw [hm2, hv2]
          rw [hm1, hv1] at hlt1
          exact hlt1
  · rintro ⟨ho, d, rest, hvd, hkey, h1, h2⟩
    have hdata' : o.key.data =
        (pT ++ "/" ++ tile ++ "/").data ++ (encDateL d ++ '/' :: rest.data) := by
      rw [hkey, mkKey_data, hkeyshape]
    have hpref : isPref (pT ++ "/" ++ tile) o.key = true := by
      rw [isPref, List.isPrefixOf_iff_prefix, hdata', hP, List.append_assoc]
      exact List.prefix_append _ _
    refine ⟨⟨ho, hpref, ?_⟩, ?_⟩
    · rw [hms, hdata', lexLt_marker _ _ _ _ hsd hvd]
      exact h1
    · rintro x ⟨hx, hxpref, hxlt⟩ heq
      rw [heq, hme, hdata', lexLt_marker _ _ _ _ hemdv hvd,
        dle_addOneDay ed emd d hed hvd hemd,
        (dlt_eq_false_iff ed d).mpr h2] at hxlt
      exact Bool.false_ne_true hxlt

theorem dateBounded_survivor (store : List S3Obj) (pT tile : String)
    (sd emd : SDate)
    (hwf : ∀ o ∈ store, isPref (pT ++ "/" ++ tile) o.key = true →
      keyOk pT tile o.key) (o : S3Obj)
    (hmem : o ∈ dateBoundedContents store pT tile sd emd) :
    ∃ d rest, validDate d ∧
      o.key.data = pT.data ++ '/' :: (tile.data ++ '/' :: (encDateL d ++ '/' :: rest)) := by
  have hP : (pT ++ "/" ++ tile ++ "/").data =
      (pT ++ "/" ++ tile).data ++ ['/'] := rfl
  have hms : (pT ++ "/" ++ tile ++ "/" ++ encDate sd).data =
      (pT ++ "/" ++ tile ++ "/").data ++ encDateL sd := rfl
  have hme : (pT ++ "/" ++ tile ++ "/" ++ encDate emd).data =
      (pT ++ "/" ++ tile ++ "/").data ++ encDateL emd := rfl
  unfold dateBoundedContents listObjects at hmem
  simp only [List.mem_filter, Bool.and_eq_true, Bool.not_eq_true',
    List.any_eq_false, decide_eq_false_iff_not, decide_eq_true_eq] at hmem
  obtain ⟨⟨ho, hpref, hlt1⟩, hno⟩ := hmem
  rcases hwf o ho hpref with ⟨d, rest, hvd, hdata⟩ | hb
  · exact ⟨d, rest, hvd, hdata⟩
  · exfalso
    have hbshape : pT.data ++ '/' :: (tile.data ++ ['/']) =
        (pT ++ "/" ++ tile).data ++ ['/'] := by
      simp [str_data_append, List.append_assoc]
    have hb' : ¬ (((pT ++ "/" ++ tile).data ++ ['/']) <+: o.key.data) := by
      intro hpre
      rw [← hbshape, ← List.isPrefixOf_iff_prefix] at hpre
      rw [hpre] at hb
      exact Bool.true_eq_false.mp hb
    obtain ⟨tail, htail⟩ := List.isPrefixOf_iff_prefix.mp hpref
    have hm1 : lexLt (pT ++ "/" ++ tile ++ "/" ++ encDate sd).data o.key.data
        = lexLt ('/' :: encDateL sd) tail := by
      rw [hms, hP, ← htail, List.append_assoc, lexLt_append_left]
      rfl
    have hm2 : lexLt (pT ++ "/" ++ tile ++ "/" ++ encDate emd).data o.key.data
        = lexLt ('/' :: encDateL emd) tail := by
      rw [hme, hP, ← htail, List.append_assoc, lexLt_append_left]
      rfl
    cases tail with
    | nil =>
      rw [hm1] at hlt1
      exact Bool.false_ne_true hlt1
    | cons c t =>
      by_cases hc : c = '/'
      · subst hc
        refine hb' ⟨t, ?_⟩
        rw [← htail, List.append_assoc]
        rfl
      · have hslash : decide ('/' = c) = false := by
          simp [Ne.symm hc]
        have hv1 : lexLt ('/' :: encDateL sd) (c :: t) = decide ('/' < c) := by
          simp [lexLt, hslash]
        have hv2 : lexLt ('/' :: encDateL emd) (c :: t) = decide ('/' < c) := by
          simp [lexLt, hslash]
        refine hno o ⟨ho, hpref, ?_⟩ rfl
        rw [hm2, hv2]
        rw [hm1, hv1] at hlt1
        exact hlt1

/-! ## The first-occurrence accumulation -/

theorem pyDedup_loop_nodup (l : List String) :
    ∀ acc : List String, acc.Nodup →
      (l.foldl (fun acc p => if p ∈ acc then acc else acc ++ [p]) acc).Nodup := by
  induction l with
  | nil => intro acc h; exact h
  | cons p l ih =>
    intro acc h
    simp only [List.foldl_cons]
    by_cases hp : p ∈ acc
    · simpa [hp] using ih acc h
    · have : (acc ++ [p]).Nodup := by
        simp [List.nodup_append, h, hp]
      simpa [hp] using ih (acc ++ [p]) this

theorem pyDedup_loop_mem (l : List String) :
    ∀ acc : List String, ∀ x : String,
      (x ∈ l.foldl (fun acc p => if p ∈ acc then acc else acc ++ [p]) acc ↔
        x ∈ acc ∨ x ∈ l) := by
  induction l with
  | nil => intro acc x; simp
  | cons p l ih =>
    intro acc x
    simp only [List.foldl_cons]
    by_cases hp : p ∈ acc
    · rw [if_pos hp, ih acc x]
      constructor
      · rintro (h | h)
        · exact Or.inl h
        · exact Or.inr (List.mem_cons_of_mem _ h)
      · rintro (h | h)
        · exact Or.inl h
        · rcases List.mem_cons.mp h with rfl | h
          · exact Or.inl hp
          · exact Or.inr h
    · rw [if_neg hp, ih (acc ++ [p]) x]
      simp only [List.mem_append, List.mem_singleton, List.mem_cons]
      tauto

theorem pyDedup_nodup (l : List String) : (pyDedup l).Nodup :=
  pyDedup_loop_nodup l [] List.nodup_nil

theorem pyDedup_mem (l : List String) (x : String) :
    x ∈ pyDedup l ↔ x ∈ l := by
  rw [pyDedup, pyDedup_loop_mem l [] x]
  simp

/-! ## `os.path.dirname` on well-formed keys -/

theorem dirnameL_append_shape (B enc r : List Char)
    (ch : Char) (eh : List Char) (hch : enc = ch :: eh) (hchne : ch ≠ '/')
    (cr : Char) (er : List Char) (hcr : enc.reverse = cr :: er) (hcrne : cr ≠ '/') :
    ∃ t, dirnameL (B ++ (enc ++ '/' :: r)) = (B ++ enc) ++ t := by
  have hrev : (B ++ (enc ++ '/' :: r)).reverse
      = r.reverse ++ ('/' :: (enc.reverse ++ B.reverse)) := by
    simp [List.reverse_append]
  have hstop : List.dropWhile (fun c => decide (c = '/')) (enc.reverse ++ B.reverse)
      = enc.reverse ++ B.reverse := by
    rw [hcr]
    simp [List.dropWhile_cons, hcrne]
  have hallenc : enc.all (fun c => decide (c = '/')) = false := by
    rw [hch]
    simp [hchne]
  have hallfalse : ∀ u : List Char, ((B ++ enc) ++ u).all (fun c => decide (c = '/')) = false := by
    intro u
    simp only [List.all_append, hallenc]
    simp
  have hne : ∀ u : List Char, ((B ++ enc) ++ ('/' :: u)).isEmpty = false := by
    intro u
    cases h : (B ++ enc) ++ ('/' :: u) with
    | nil => exact absurd h (by simp)
    | cons a l => simp
  unfold dirnameL
  rw [hrev, List.dropWhile_append]
  by_cases hdw : (List.dropWhile (fun c => decide (c ≠ '/')) r.reverse).isEmpty
  · rw [if_pos hdw]
    have h1 : List.dropWhile (fun c => decide (c ≠ '/')) ('/' :: (enc.reverse ++ B.reverse))
        = '/' :: (enc.reverse ++ B.reverse) := by
      simp [List.dropWhile_cons]
    rw [h1]
    refine ⟨[], ?_⟩
    have hhead : ('/' :: (enc.reverse ++ B.reverse)).reverse = (B ++ enc) ++ ['/'] := by
      simp [List.reverse_append, List.append_assoc]
    simp only [hhead]
    rw [if_neg (by rw [hne, hallfalse]; simp)]
    have hhr : ((B ++ enc) ++ ['/']).reverse = '/' :: (enc.reverse ++ B.reverse) := by
      simp [List.reverse_append, List.append_assoc]
    rw [hhr]
    have h2 : List.dropWhile (fun c => decide (c = '/')) ('/' :: (enc.reverse ++ B.reverse))
        = enc.reverse ++ B.reverse := by
      rw [List.dropWhile_cons]
      simp [hstop]
    rw [h2]
    simp [List.reverse_append]
  · rw [if_neg hdw]
    have hhead : (List.dropWhile (fun c => decide (c ≠ '/')) r.reverse ++
        ('/' :: (enc.reverse ++ B.reverse))).reverse
        = ((B ++ enc) ++ ['/']) ++ (List.dropWhile (fun c => decide (c ≠ '/')) r.reverse).reverse := by
      simp [List.reverse_append, List.append_assoc]
    rw [hhead]
    rw [if_neg ?hcond]
    case hcond =>
      rw [List.append_assoc, List.singleton_append, hne, hallfalse]
      simp
    have hhr : (((B ++ enc) ++ ['/']) ++ (List.dropWhile (fun c => decide (c ≠ '/')) r.reverse).reverse).reverse
        = List.dropWhile (fun c => decide (c ≠ '/')) r.reverse ++ ('/' :: (enc.reverse ++ B.reverse)) := by
      simp [List.reverse_append, List.append_assoc]
    rw [hhr, List.dropWhile_append]
    by_cases hv : (List.dropWhile (fun c => decide (c = '/'))
        (List.dropWhile (fun c => decide (c ≠ '/')) r.reverse)).isEmpty
    · rw [if_pos hv]
      have h2 : List.dropWhile (fun c => decide (c = '/')) ('/' :: (enc.reverse ++ B.reverse))
          = enc.reverse ++ B.reverse := by
        rw [List.dropWhile_cons]
        simp [hstop]
      rw [h2]
      refine ⟨[], ?_⟩
      simp [List.reverse_append]
    · rw [if_neg hv]
      refine ⟨'/' :: (List.dropWhile (fun c => decide (c = '/'))
        (List.dropWhile (fun c => decide (c ≠ '/')) r.reverse)).reverse, ?_⟩
      simp [List.reverse_append, List.append_assoc]

/-! ## Recovering product type and tile from a product directory -/

theorem seg1_of_shape (a z : List Char) (h : '/' ∉ a) :
    seg1 (a ++ '/' :: z) = a := by
  unfold seg1
  have hall : ∀ c ∈ a, (fun c => decide (c ≠ '/')) c = true := by
    intro c hc
    simp only [decide_eq_true_eq]
    intro hcc
    exact h (hcc ▸ hc)
  rw [List.takeWhile_append,
    if_pos (by rw [List.takeWhile_eq_self_iff.mpr hall])]
  simp [List.takeWhile_cons]

theorem seg2_of_shape (a b z : List Char) (ha : '/' ∉ a) (hb : '/' ∉ b) :
    seg2 (a ++ '/' :: (b ++ '/' :: z)) = b := by
  unfold seg2
  have halla : ∀ c ∈ a, (fun c => decide (c ≠ '/')) c = true := by
    intro c hc
    simp only [decide_eq_true_eq]
    intro hcc
    exact ha (hcc ▸ hc)
  have hallb : ∀ c ∈ b, (fun c => decide (c ≠ '/')) c = true := by
    intro c hc
    simp only [decide_eq_true_eq]
    intro hcc
    exact hb (hcc ▸ hc)
  rw [List.dropWhile_append,
    if_pos (by rw [List.dropWhile_eq_nil_iff.mpr halla]; rfl)]
  have h1 : List.dropWhile (fun c => decide (c ≠ '/')) ('/' :: (b ++ '/' :: z))
      = '/' :: (b ++ '/' :: z) := by
    simp [List.dropWhile_cons]
  rw [h1, List.drop_succ_cons, List.drop_zero, List.takeWhile_append,
    if_pos (by rw [List.takeWhile_eq_self_iff.mpr hallb])]
  simp [List.takeWhile_cons]

theorem listProductsOf_shape (store : List S3Obj) (pT tile : String)
    (sd emd : SDate)
    (hwf : ∀ o ∈ store, isPref (pT ++ "/" ++ tile) o.key = true →
      keyOk pT tile o.key) (x : String)
    (hx : x ∈ listProductsOf (dateBoundedContents store pT tile sd emd)) :
    ∃ z, x.data = pT.data ++ '/' :: (tile.data ++ '/' :: z) := by
  rw [listProductsOf, pyDedup_mem] at hx
  obtain ⟨o, ho, rfl⟩ := List.mem_map.mp hx
  obtain ⟨d, rest, hvd, hdata⟩ := dateBounded_survivor store pT tile sd emd hwf o ho
  have hform : o.key.data =
      (pT.data ++ '/' :: (tile.data ++ ['/'])) ++ (encDateL d ++ '/' :: rest) := by
    rw [hdata]
    simp [List.append_assoc]
  obtain ⟨t, ht⟩ := dirnameL_append_shape (pT.data ++ '/' :: (tile.data ++ ['/']))
    (encDateL d) rest (dChar (d.year / 1000)) _ rfl (dChar_ne_slash _)
    (dChar (d.day % 10))
    [dChar (d.day / 10), '/', dChar (d.month % 10), dChar (d.month / 10), '/',
      dChar (d.year % 10), dChar (d.year / 10 % 10), dChar (d.year / 100 % 10),
      dChar (d.year / 1000)]
    (by simp [encDateL, pad4, pad2]) (dChar_ne_slash _)
  refine ⟨encDateL d ++ t, ?_⟩
  show dirnameL o.key.data = _
  rw [hform, ht]
  simp [List.append_assoc]

theorem execute_request_lines_nodup (store : List S3Obj)
    (pts tiles : List String) (sd ed : SDate) (out : QueryOutcome)
    (hpts : pts.Nodup) (htiles : tiles.Nodup)
    (hs1 : ∀ s ∈ pts, '/' ∉ s.data) (hs2 : ∀ s ∈ tiles, '/' ∉ s.data)
    (hwf : ∀ pT ∈ pts, ∀ tile ∈ tiles, ∀ o ∈ store,
      isPref (pT ++ "/" ++ tile) o.key = true → keyOk pT tile o.key)
    (hreq : execute_request store pts tiles sd ed = some out) :
    out.total_list_products.Nodup := by
  unfold execute_request at hreq
  cases hemd : addOneDay ed with
  | none => rw [hemd] at hreq; exact absurd hreq (by simp)
  | some emd =>
    rw [hemd] at hreq
    obtain rfl := Option.some_inj.mp hreq
    dsimp only
    rw [List.nodup_flatMap]
    constructor
    · intro pT hpT
      rw [List.nodup_flatMap]
      refine ⟨fun tile _ => pyDedup_nodup _, ?_⟩
      refine List.Pairwise.imp_of_mem ?_ htiles
      intro t1 t2 h1 h2 hne
      intro x hx1 hx2
      obtain ⟨z1, hz1⟩ :=
        listProductsOf_shape store pT t1 sd emd (hwf pT hpT t1 h1) x hx1
      obtain ⟨z2, hz2⟩ :=
        listProductsOf_shape store pT t2 sd emd (hwf pT hpT t2 h2) x hx2
      have e1 : seg2 x.data = t1.data := by
        rw [hz1]
        exact seg2_of_shape _ _ _ (hs1 pT hpT) (hs2 t1 h1)
      have e2 : seg2 x.data = t2.data := by
        rw [hz2]
        exact seg2_of_shape _ _ _ (hs1 pT hpT) (hs2 t2 h2)
      exact hne (String.ext (e1 ▸ e2))
    · refine List.Pairwise.imp_of_mem ?_ hpts
      intro p1 p2 h1 h2 hne
      intro x hx1 hx2
      obtain ⟨t1, ht1, hx1'⟩ := List.mem_flatMap.mp hx1
      obtain ⟨t2, ht2, hx2'⟩ := List.mem_flatMap.mp hx2
      obtain ⟨z1, hz1⟩ :=
        listProductsOf_shape store p1 t1 sd emd (hwf p1 h1 t1 ht1) x hx1'
      obtain ⟨z2, hz2⟩ :=
        listProductsOf_shape store p2 t2 sd emd (hwf p2 h2 t2 ht2) x hx2'
      have e1 : seg1 x.data = p1.data := by
        rw [hz1]
        exact seg1_of_shape _ _ (hs1 p1 h1)
      have e2 : seg1 x.data = p2.data := by
        rw [hz2]
        exact seg1_of_shape _ _ (hs1 p2 h2)
      exact hne (String.ext (e1 ▸ e2))

/-! ## The artifact round-trip -/

theorem pyReadlinesAux_line (l : List Char) :
    ∀ rest acc : List Char, '\n' ∉ l →
      pyReadlinesAux (l ++ '\n' :: rest) acc =
        (acc.reverse ++ (l ++ ['\n'])) :: pyReadlinesAux rest [] := by
  induction l with
  | nil =>
    intro rest acc _
    simp [pyReadlinesAux]
  | cons c l ih =>
    intro rest acc h
    have hc : ¬ (c = '\n') := fun hcc => h (hcc ▸ List.mem_cons_self c l)
    have h' : '\n' ∉ l := fun hl => h (List.mem_cons_of_mem c hl)
    rw [List.cons_append,
      show pyReadlinesAux (c :: (l ++ '\n' :: rest)) acc =
        pyReadlinesAux (l ++ '\n' :: rest) (c :: acc) from by
          simp [pyReadlinesAux, hc],
      ih rest (c :: acc) h']
    simp

theorem dropWhile_length_le (p : Char → Bool) (l : List Char) :
    (l.dropWhile p).length ≤ l.length := (List.dropWhile_sublist p).length_le

theorem length_dropWhile_eq (p : Char → Bool) (l : List Char)
    (h : (l.dropWhile p).length = l.length) : l.dropWhile p = l := by
  cases l with
  | nil => rfl
  | cons c t =>
    by_cases hc : p c
    · rw [List.dropWhile_cons, if_pos hc] at h ⊢
      rw [List.length_cons] at h
      have := dropWhile_length_le p t
      omega
    · rw [List.dropWhile_cons, if_neg hc]

theorem strip_eq_self_parts (l : List Char)
    (h : ((l.dropWhile pySpace).reverse.dropWhile pySpace).reverse = l) :
    l.dropWhile pySpace = l ∧ l.reverse.dropWhile pySpace = l.reverse := by
  have hlen1 : (l.dropWhile pySpace).length ≤ l.length :=
    dropWhile_length_le pySpace l
  have hlen2 : ((l.dropWhile pySpace).reverse.dropWhile pySpace).length ≤
      (l.dropWhile pySpace).length := by
    have := dropWhile_length_le pySpace (l.dropWhile pySpace).reverse
    simpa using this
  have hlen3 : ((l.dropWhile pySpace).reverse.dropWhile pySpace).reverse.length = l.length := by
    rw [h]
  rw [List.length_reverse] at hlen3
  have h1 : l.dropWhile pySpace = l :=
    length_dropWhile_eq pySpace l (by omega)
  refine ⟨h1, ?_⟩
  rw [h1] at h
  have : l.reverse.dropWhile pySpace = l.reverse := by
    have := congrArg List.reverse h
    rwa [List.reverse_reverse] at this
  exact this

theorem strip_line (x : List Char) (hne : x ≠ [])
    (h1 : x.dropWhile pySpace = x)
    (h2 : x.reverse.dropWhile pySpace = x.reverse) :
    (((x ++ ['\n']).dropWhile pySpace).reverse.dropWhile pySpace).reverse = x := by
  have hda : (x ++ ['\n']).dropWhile pySpace = x ++ ['\n'] := by
    cases x with
    | nil => exact absurd rfl hne
    | cons c t =>
      by_cases hc : pySpace c
      · rw [List.dropWhile_cons, if_pos hc] at h1
        have := dropWhile_length_le pySpace t
        have := congrArg List.length h1
        simp at this
        omega
      · rw [List.cons_append, List.dropWhile_cons, if_neg hc]
  rw [hda]
  have hrev : (x ++ ['\n']).reverse = '\n' :: x.reverse := by
    simp
  rw [hrev, List.dropWhile_cons, if_pos (by decide), h2, List.reverse_reverse]

theorem join_data (L : List String) :
    ∀ acc : String, (L.foldl (fun a b => a ++ b) acc).data =
      acc.data ++ (L.map String.data).flatten := by
  induction L with
  | nil => intro acc; simp
  | cons s L ih =>
    intro acc
    simp only [List.foldl_cons, ih, List.map_cons, List.flatten_cons,
      str_data_append, List.append_assoc]

theorem writeArtifact_data (lines : List String) :
    (writeArtifact lines).data =
      (lines.map (fun l => l.data ++ ['\n'])).flatten := by
  unfold writeArtifact String.join
  rw [join_data]
  show (List.map String.data (lines.map (fun res => res ++ "\n"))).flatten = _
  rw [List.map_map]
  rfl

theorem readArtifact_writeArtifact (lines : List String)
    (h : ∀ l ∈ lines, l ≠ "" ∧ '\n' ∉ l.data ∧ pyStrip l = l) :
    readArtifact (writeArtifact lines) = lines := by
  induction lines with
  | nil => rfl
  | cons x ls ih =>
    obtain ⟨hne, hnl, hstrip⟩ := h x (List.mem_cons_self x ls)
    have hdata : (writeArtifact (x :: ls)).data =
        x.data ++ '\n' :: (writeArtifact ls).data := by
      rw [writeArtifact_data, List.map_cons, List.flatten_cons,
        writeArtifact_data, List.append_assoc]
      rfl
    have hstripd : ((x.data.dropWhile pySpace).reverse.dropWhile pySpace).reverse
        = x.data := congrArg String.data hstrip
    obtain ⟨hs1, hs2⟩ := strip_eq_self_parts x.data hstripd
    have hxne : x.data ≠ [] := by
      intro hh
      exact hne (String.ext hh)
    unfold readArtifact pyReadlines
    rw [hdata, pyReadlinesAux_line x.data (writeArtifact ls).data [] hnl]
    simp only [List.reverse_nil, List.nil_append, List.map_cons, List.filter_cons]
    have hstripline : pyStrip ⟨x.data ++ ['\n']⟩ = x := by
      unfold pyStrip
      exact String.ext (strip_line x.data hxne hs1 hs2)
    rw [hstripline]
    rw [if_pos (by simpa using hne)]
    have := ih (fun l hl => h l (List.mem_cons_of_mem x hl))
    unfold readArtifact pyReadlines at this
    rw [this]

/-! ## Tile validation: shapes and case preservation -/

theorem toUpper_of_isDigit (c : Char) (h : c.isDigit = true) : c.toUpper = c := by
  unfold Char.isDigit at h
  simp only [Bool.and_eq_true, decide_eq_true_eq] at h
  have h57 : (57 : UInt32).toNat = 57 := rfl
  have hn : c.toNat ≤ 57 := by
    have hv : c.val.toNat ≤ (57 : UInt32).toNat := h.2
    have hh : (57 : UInt32).toNat = 57 := rfl
    have hc : c.toNat = c.val.toNat := rfl
    omega
  show (if c.toNat ≥ 97 ∧ c.toNat ≤ 122 then Char.ofNat (c.toNat - 32) else c) = c
  rw [if_neg (by omega)]

theorem toUpper_of_upperAZ (c : Char) (_h1 : 'A' ≤ c) (h2 : c ≤ 'Z') :
    c.toUpper = c := by
  have h90 : ('Z' : Char).val.toNat = 90 := rfl
  have hn : c.toNat ≤ 90 := by
    have hz : c.val.toNat ≤ ('Z' : Char).val.toNat := h2
    have hid : c.toNat = c.val.toNat := rfl
    omega
  show (if c.toNat ≥ 97 ∧ c.toNat ≤ 122 then Char.ofNat (c.toNat - 32) else c) = c
  rw [if_neg (by omega)]

theorem tileAt_upper (c0 c1 c2 c3 c4 : Char) (h : tileAt c0 c1 c2 c3 c4 = true) :
    [c0, c1, c2, c3, c4].map Char.toUpper = [c0, c1, c2, c3, c4] := by
  unfold tileAt at h
  simp only [Bool.and_eq_true, decide_eq_true_eq] at h
  obtain ⟨⟨⟨⟨h0, h1⟩, h2⟩, h3⟩, h4⟩ := h
  simp [toUpper_of_isDigit _ h0, toUpper_of_isDigit _ h1,
    toUpper_of_upperAZ _ h2.1 h2.2, toUpper_of_upperAZ _ h3.1 h3.2,
    toUpper_of_upperAZ _ h4.1 h4.2]

theorem reSearchTile_shape : ∀ l m, reSearchTile l = some m →
    ∃ c0 c1 c2 c3 c4, m = [c0, c1, c2, c3, c4] ∧ tileAt c0 c1 c2 c3 c4 = true := by
  intro l
  induction l with
  | nil => intro m h; exact absurd h (by simp [reSearchTile])
  | cons c0 rest ih =>
    intro m h
    rcases rest with _ | ⟨c1, _ | ⟨c2, _ | ⟨c3, _ | ⟨c4, rest'⟩⟩⟩⟩
    · exact absurd h (by simp [reSearchTile])
    · exact absurd h (by simp [reSearchTile])
    · exact absurd h (by simp [reSearchTile])
    · exact absurd h (by simp [reSearchTile])
    · rw [reSearchTile] at h
      split at h
      · exact ⟨c0, c1, c2, c3, c4, (Option.some_inj.mp h).symm, by assumption⟩
      · exact ih m h

theorem coreTileL_shape (l : List Char) (h : coreTileL l = true) :
    ∃ c0 c1 c2 c3 c4, l = [c0, c1, c2, c3, c4] ∧ tileAt c0 c1 c2 c3 c4 = true := by
  unfold coreTileL at h
  split at h
  · rename_i c0 c1 c2 c3 c4
    exact ⟨c0, c1, c2, c3, c4, rfl, h⟩
  · exact absurd h (by simp)

theorem validate_tile_core (c0 c1 c2 c3 c4 : Char)
    (h : tileAt c0 c1 c2 c3 c4 = true) :
    validate_tile_format ⟨[c0, c1, c2, c3, c4]⟩ = .ok ⟨[c0, c1, c2, c3, c4]⟩ := by
  unfold validate_tile_format
  have hsearch : reSearchTile (String.data ⟨[c0, c1, c2, c3, c4]⟩)
      = some [c0, c1, c2, c3, c4] := by
    show reSearchTile [c0, c1, c2, c3, c4] = _
    unfold reSearchTile
    rw [if_pos h]
  rw [hsearch]
  rfl

theorem validate_tile_T (c0 c1 c2 c3 c4 : Char)
    (h : tileAt c0 c1 c2 c3 c4 = true) :
    validate_tile_format ⟨['T', c0, c1, c2, c3, c4]⟩ = .ok ⟨[c0, c1, c2, c3, c4]⟩ := by
  unfold validate_tile_format
  have hT : tileAt 'T' c0 c1 c2 c3 = false := by
    unfold tileAt
    have : ('T' : Char).isDigit = false := by decide
    rw [this]
    rfl
  have hsearch : reSearchTile (String.data ⟨['T', c0, c1, c2, c3, c4]⟩)
      = some [c0, c1, c2, c3, c4] := by
    show reSearchTile ['T', c0, c1, c2, c3, c4] = _
    unfold reSearchTile
    rw [if_neg (by rw [hT]; exact Bool.false_ne_true)]
    unfold reSearchTile
    rw [if_pos h]
  rw [hsearch]
  rfl

theorem pyUpper_tile (c0 c1 c2 c3 c4 : Char) (h : tileAt c0 c1 c2 c3 c4 = true) :
    pyUpper ⟨[c0, c1, c2, c3, c4]⟩ = ⟨[c0, c1, c2, c3, c4]⟩ := by
  unfold pyUpper
  exact congrArg String.mk (tileAt_upper _ _ _ _ _ h)

theorem resolveTiles_core (c0 c1 c2 c3 c4 : Char)
    (h : tileAt c0 c1 c2 c3 c4 = true) :
    resolveTiles [⟨[c0, c1, c2, c3, c4]⟩] = .ok [⟨[c0, c1, c2, c3, c4]⟩] := by
  unfold resolveTiles
  rw [List.mapM_cons, List.mapM_nil, validate_tile_core _ _ _ _ _ h]
  show (Except.ok (pyUpper ⟨[c0, c1, c2, c3, c4]⟩) >>= fun v =>
    (pure [] : Except ExitArg (List String)) >>= fun vs => pure (v :: vs)) >>= _ = _
  rw [pyUpper_tile _ _ _ _ _ h]
  rfl

theorem resolveTiles_T (c0 c1 c2 c3 c4 : Char)
    (h : tileAt c0 c1 c2 c3 c4 = true) :
    resolveTiles [⟨['T', c0, c1, c2, c3, c4]⟩] = .ok [⟨[c0, c1, c2, c3, c4]⟩] := by
  unfold resolveTiles
  rw [List.mapM_cons, List.mapM_nil, validate_tile_T _ _ _ _ _ h]
  show (Except.ok (pyUpper ⟨[c0, c1, c2, c3, c4]⟩) >>= fun v =>
    (pure [] : Except ExitArg (List String)) >>= fun vs => pure (v :: vs)) >>= _ = _
  rw [pyUpper_tile _ _ _ _ _ h]
  rfl

/-! # Claim theorems -/

/-- **C1** For every requested product type, tile, and date window with
startDate ≤ endDate (and a representable day-after-end marker), given that
the store lists keys in ascending lexicographic order strictly after the
marker and that its keys under the prefix `{productType}/{tile}` are
well-formed, the date-bounded listing of `execute_request` — the difference
of the listing seeded at `{prefix}/{startDate}` minus the listing seeded at
`{prefix}/{endDate + 1 day}` — holds exactly the objects whose key-encoded
observation date lies in the inclusive window; for startDate = endDate it is
exactly that single day. -/
theorem c1_date_bounded_listing (store : List S3Obj) (pT tile : String)
    (sd ed emd : SDate) (hsd : validDate sd) (hed : validDate ed)
    (hemd : addOneDay ed = some emd) (hrange : dle sd ed = true)
    (hwf : ∀ o ∈ store, isPref (pT ++ "/" ++ tile) o.key = true →
      keyOk pT tile o.key) :
    (∀ o, o ∈ dateBoundedContents store pT tile sd emd ↔
      o ∈ store ∧ ∃ d rest, validDate d ∧ o.key = mkKey pT tile d rest ∧
        dle sd d = true ∧ dle d ed = true) ∧
    (sd = ed → ∀ o, (o ∈ dateBoundedContents store pT tile sd emd ↔
      o ∈ store ∧ ∃ rest, o.key = mkKey pT tile sd rest)) := by
  refine ⟨fun o => mem_dateBoundedContents store pT tile sd ed emd hsd hed hemd hwf o, ?_⟩
  rintro rfl o
  rw [mem_dateBoundedContents store pT tile sd sd emd hsd hed hemd hwf o]
  constructor
  · rintro ⟨ho, d, rest, hvd, hkey, h1, h2⟩
    have hde : sd = d := dle_antisymm sd d h1 h2
    rw [← hde] at hkey
    exact ⟨ho, rest, hkey⟩
  · rintro ⟨ho, rest, hkey⟩
    exact ⟨ho, sd, rest, hsd, hkey, by simp [dle], by simp [dle]⟩

/-- Witness for C1: the specification's end-to-end scenario, at the window
2025-02-01 .. 2025-02-03 over the simulated catalog. -/
theorem c1_date_bounded_listing_witness :
    validDate ⟨2025, 2, 1⟩ ∧ addOneDay ⟨2025, 2, 3⟩ = some ⟨2025, 2, 4⟩ ∧
    (⟨"FSC/31TCH/2025/02/01/P1/a.tif", 10⟩ : S3Obj) ∈
      dateBoundedContents demoStore "FSC" "31TCH" ⟨2025, 2, 1⟩ ⟨2025, 2, 4⟩ ∧
    (⟨"FSC/31TCH/2025/02/02/P2/b.tif", 20⟩ : S3Obj) ∈
      dateBoundedContents demoStore "FSC" "31TCH" ⟨2025, 2, 1⟩ ⟨2025, 2, 4⟩ := by
  have hwf : ∀ o ∈ demoStore, isPref ("FSC" ++ "/" ++ "31TCH") o.key = true →
      keyOk "FSC" "31TCH" o.key := by
    intro o ho _
    simp only [demoStore, List.mem_cons, List.not_mem_nil, or_false] at ho
    rcases ho with rfl | rfl | rfl
    · exact Or.inl ⟨⟨2025, 2, 1⟩, ("P1/a.tif" : String).data, by decide, by decide⟩
    · exact Or.inl ⟨⟨2025, 2, 2⟩, ("P2/b.tif" : String).data, by decide, by decide⟩
    · exact Or.inl ⟨⟨2025, 2, 4⟩, ("P3/c.tif" : String).data, by decide, by decide⟩
  have H := c1_date_bounded_listing demoStore "FSC" "31TCH"
    ⟨2025, 2, 1⟩ ⟨2025, 2, 3⟩ ⟨2025, 2, 4⟩ (by decide) (by decide) (by decide)
    (by decide) hwf
  refine ⟨by decide, by decide, ?_, ?_⟩
  · exact (H.1 _).mpr ⟨by decide, ⟨2025, 2, 1⟩, "P1/a.tif", by decide, by decide,
      by decide, by decide⟩
  · exact (H.1 _).mpr ⟨by decide, ⟨2025, 2, 2⟩, "P2/b.tif", by decide, by decide,
      by decide, by decide⟩

/-- **C2** The claim says 503 / endpoint-connectivity failures are retried up
to 3 attempts with 2-second delays and an eventually-successful product is
reported successful.  The code does not do this: every caught failure is
re-raised as `RuntimeError` and then replaced by `UnboundLocalError` in the
`finally` block, so the `@retry(EndpointConnectionError, tries=3, delay=2)`
decorator never sees a retryable exception — the download of a product whose
S3 calls would fail transiently twice and then succeed instead makes exactly
one call, sleeps 0 seconds, and fails.  (A clean run still returns normally
after its single call.) -/
theorem c2_transient_failures_not_retried :
    download_from_s3 (fun k => if k < 2 then some (.clientError "503") else none)
      = (some .unboundLocalError, 1, 0) ∧
    download_from_s3 (fun k => if k < 2 then some .endpointConnectionError else none)
      = (some .unboundLocalError, 1, 0) ∧
    download_from_s3 (fun _ => none) = (none, 1, 0) := by decide

/-- **C3** The claim's exit statuses 12 (not-found) and 78 (access-denied)
are unreachable: the `finally` block reads the deleted `except ... as err`
binding, so a 404 or 403 failure escapes as `UnboundLocalError` and the
interpreter exits with status 1 in both cases, never 12 or 78. -/
theorem c3_exit_statuses_unreachable :
    (download_from_s3 (fun _ => some (.clientError "404"))).1
      = some .unboundLocalError ∧
    processExit (download_from_s3 (fun _ => some (.clientError "404"))).1 = 1 ∧
    (download_from_s3 (fun _ => some (.clientError "403"))).1
      = some .unboundLocalError ∧
    processExit (download_from_s3 (fun _ => some (.clientError "403"))).1 = 1 ∧
    (1 : Int) ≠ 12 ∧ (1 : Int) ≠ 78 := by decide

/-- **C4** Not every validation failure exits with status -2: the
product-type, wkt/epsg and vector/grid-file validators call
`sys.exit("-2")` with a *string*, which makes the process print `-2` and
exit with status 1; only the date, tile-format and empty-tile-set failures
pass the integer -2. -/
theorem c4_validation_exit_statuses :
    validate_product_type [] "FSC" = .error (.str "-2") ∧
    validate_wkt_epsg .crsError "32630" "POINT (0 0)" = .error (.str "-2") ∧
    vectorReadFailureExit = .str "-2" ∧
    sysExitStatus (.str "-2") = 1 ∧ (1 : Int) ≠ -2 ∧
    validate_dates "2025-02-02" "2025-02-01" = .error (.int (-2)) ∧
    validate_tile_format "HELLO" = .error (.int (-2)) ∧
    sysExitStatus (.int (-2)) = -2 := by decide

/-- **C8** With endDate = 9999-12-31 (`datetime.date.max`), computing the
day-after-end marker raises `OverflowError` and `execute_request` fails
instead of treating the bound as open-ended. -/
theorem c8_max_end_date_overflows :
    addOneDay ⟨9999, 12, 31⟩ = none ∧
    execute_request demoStore ["FSC"] ["31TCH"] ⟨2025, 1, 1⟩ ⟨9999, 12, 31⟩
      = none := by decide

/-- **C5** The 500-product threshold is asymmetric: `execute_request` never
fails on a large result — it only sets the warning flag and always persists
the full product list to the artifact — while `download` rejects an artifact
with 501 product entries before any transfer and accepts one with exactly
500. -/
theorem c5_threshold_asymmetry :
    (∀ store pts tiles sd ed out,
        execute_request store pts tiles sd ed = some out →
          out.artifact = writeArtifact out.total_list_products ∧
          out.threshold_warning =
            decide (out.total_list_products.length > DOWNLOAD_THRESHOLD)) ∧
    (∀ content, (readArtifact content).length = 501 →
        download (some content) =
          .error (.runtimeError "No active exception to re-raise")) ∧
    (∀ content, (readArtifact content).length = 500 →
        download (some content) = .ok (readArtifact content)) := by
  refine ⟨?_, ?_, ?_⟩
  · intro store pts tiles sd ed out hreq
    unfold execute_request at hreq
    cases hemd : addOneDay ed with
    | none => rw [hemd] at hreq; exact absurd hreq (by simp)
    | some emd =>
      rw [hemd] at hreq
      obtain rfl := Option.some_inj.mp hreq
      exact ⟨rfl, rfl⟩
  · intro content h
    show (if (readArtifact content).length > DOWNLOAD_THRESHOLD then
        (.error (.runtimeError "No active exception to re-raise") :
          Except PyExc (List String))
      else .ok (readArtifact content)) = _
    rw [h]
    rfl
  · intro content h
    show (if (readArtifact content).length > DOWNLOAD_THRESHOLD then
        (.error (.runtimeError "No active exception to re-raise") :
          Except PyExc (List String))
      else .ok (readArtifact content)) = _
    rw [h]
    rfl

set_option maxRecDepth 100000 in
/-- Witness for C5: a 501-line artifact is refused, a 500-line artifact is
accepted, and a concrete query past nothing still persists its artifact. -/
theorem c5_threshold_asymmetry_witness :
    (readArtifact (smallArtifact 501)).length = 501 ∧
    download (some (smallArtifact 501)) =
      .error (.runtimeError "No active exception to re-raise") ∧
    (readArtifact (smallArtifact 500)).length = 500 ∧
    download (some (smallArtifact 500)) = .ok (readArtifact (smallArtifact 500)) ∧
    execute_request demoStore ["FSC"] ["31TCH"] ⟨2025, 2, 1⟩ ⟨2025, 2, 3⟩ =
      some ⟨["FSC/31TCH/2025/02/01/P1", "FSC/31TCH/2025/02/02/P2"], 30, false,
        "FSC/31TCH/2025/02/01/P1\nFSC/31TCH/2025/02/02/P2\n"⟩ ∧
    (⟨["FSC/31TCH/2025/02/01/P1", "FSC/31TCH/2025/02/02/P2"], 30, false,
        "FSC/31TCH/2025/02/01/P1\nFSC/31TCH/2025/02/02/P2\n"⟩ : QueryOutcome).artifact
      = writeArtifact
        (⟨["FSC/31TCH/2025/02/01/P1", "FSC/31TCH/2025/02/02/P2"], 30, false,
          "FSC/31TCH/2025/02/01/P1\nFSC/31TCH/2025/02/02/P2\n"⟩ :
            QueryOutcome).total_list_products := by
  have h501 : (readArtifact (smallArtifact 501)).length = 501 := by decide
  have h500 : (readArtifact (smallArtifact 500)).length = 500 := by decide
  refine ⟨h501, c5_threshold_asymmetry.2.1 _ h501, h500,
    c5_threshold_asymmetry.2.2 _ h500, by decide, ?_⟩
  exact (c5_threshold_asymmetry.1 demoStore ["FSC"] ["31TCH"] ⟨2025, 2, 1⟩
    ⟨2025, 2, 3⟩ _ (by decide)).1

/-- Counterexample to **C6** as stated: resolving the singleton tile set
`{"T31TCH"}` — a string matching the accepted pattern — does not return the
same set uppercased: the leading `T` is stripped. -/
theorem c6_counterexample :
    resolveTiles ["T31TCH"] = .ok ["31TCH"] ∧
    ("31TCH" : String) ≠ "T31TCH" := by decide

/-- **C6** (amended) For every string matching the accepted tile pattern,
resolving the singleton set returns the singleton of its five-character core
(the leading `T` of a six-character identifier is stripped; bare identifiers
come back unchanged, already uppercase), and resolution is idempotent:
resolving the resolved set returns it unchanged. -/
theorem c6_tile_resolution (s : String) (h : tilePattern s = true) :
    resolveTiles [s] = .ok [stripT s] ∧
    resolveTiles [stripT s] = .ok [stripT s] := by
  unfold tilePattern at h
  rw [Bool.or_eq_true] at h
  rcases h with h | h
  · obtain ⟨c0, c1, c2, c3, c4, hl, ht⟩ := coreTileL_shape s.data h
    have hs : s = ⟨[c0, c1, c2, c3, c4]⟩ := by
      cases s with
      | mk data => exact congrArg String.mk hl
    have hstrip : stripT s = s := by
      unfold stripT
      rw [if_neg (by rw [hl]; simp)]
    rw [hstrip, hs]
    exact ⟨resolveTiles_core _ _ _ _ _ ht, resolveTiles_core _ _ _ _ _ ht⟩
  · rcases hsd : s.data with _ | ⟨c, rest⟩
    · rw [hsd] at h
      exact absurd h (by simp)
    · rw [hsd] at h
      simp only [Bool.and_eq_true, decide_eq_true_eq] at h
      obtain ⟨rfl, hcore⟩ := h
      obtain ⟨c0, c1, c2, c3, c4, hl, ht⟩ := coreTileL_shape rest hcore
      subst hl
      have hs : s = ⟨['T', c0, c1, c2, c3, c4]⟩ := by
        cases s with
        | mk data => exact congrArg String.mk hsd
      have hstrip : stripT s = ⟨[c0, c1, c2, c3, c4]⟩ := by
        unfold stripT
        rw [if_pos (by rw [hsd]; rfl)]
        rw [hsd]
        rfl
      rw [hstrip, hs]
      exact ⟨resolveTiles_T _ _ _ _ _ ht, resolveTiles_core _ _ _ _ _ ht⟩

/-- Witness for C6 (amended): the T-prefixed identifier of the
specification's example resolves to its bare core. -/
theorem c6_tile_resolution_witness :
    tilePattern "T31TCH" = true ∧
    resolveTiles ["T31TCH"] = .ok [stripT "T31TCH"] ∧
    stripT "T31TCH" = "31TCH" :=
  ⟨by decide, (c6_tile_resolution "T31TCH" (by decide)).1, by decide⟩

/-- Counterexample to **C7** as stated: requesting the same product type
twice (`["FSC", "FSC"]`) duplicates every line of the artifact — the product
types, unlike the tiles, are not deduplicated. -/
theorem c7_counterexample :
    (execute_request demoStore ["FSC", "FSC"] ["31TCH"]
        ⟨2025, 2, 1⟩ ⟨2025, 2, 3⟩).map QueryOutcome.total_list_products =
      some ["FSC/31TCH/2025/02/01/P1", "FSC/31TCH/2025/02/02/P2",
        "FSC/31TCH/2025/02/01/P1", "FSC/31TCH/2025/02/02/P2"] ∧
    ¬ (["FSC/31TCH/2025/02/01/P1", "FSC/31TCH/2025/02/02/P2",
        "FSC/31TCH/2025/02/01/P1", "FSC/31TCH/2025/02/02/P2"] :
          List String).Nodup := by decide

/-- **C7** (amended) The persisted QueryResult has pairwise-distinct
product-directory lines provided the requested product types are pairwise
distinct (the tile set is deduplicated by `build_query`, the product-type
list is not): within one (productType, tile) listing directories are
deduplicated, and directories of distinct slash-free (productType, tile)
pairs can never coincide. -/
theorem c7_distinct_artifact_lines (store : List S3Obj)
    (pts tiles : List String) (sd ed : SDate) (out : QueryOutcome)
    (hpts : pts.Nodup) (htiles : tiles.Nodup)
    (hs1 : ∀ s ∈ pts, '/' ∉ s.data) (hs2 : ∀ s ∈ tiles, '/' ∉ s.data)
    (hwf : ∀ pT ∈ pts, ∀ tile ∈ tiles, ∀ o ∈ store,
      isPref (pT ++ "/" ++ tile) o.key = true → keyOk pT tile o.key)
    (hreq : execute_request store pts tiles sd ed = some out) :
    out.total_list_products.Nodup :=
  execute_request_lines_nodup store pts tiles sd ed out hpts htiles hs1 hs2
    hwf hreq

/-- Witness for C7 (amended): the specification's end-to-end query produces
an artifact with no repeated line. -/
theorem c7_distinct_artifact_lines_witness :
    execute_request demoStore ["FSC"] ["31TCH"] ⟨2025, 2, 1⟩ ⟨2025, 2, 3⟩ =
      some ⟨["FSC/31TCH/2025/02/01/P1", "FSC/31TCH/2025/02/02/P2"], 30, false,
        "FSC/31TCH/2025/02/01/P1\nFSC/31TCH/2025/02/02/P2\n"⟩ ∧
    (⟨["FSC/31TCH/2025/02/01/P1", "FSC/31TCH/2025/02/02/P2"], 30, false,
        "FSC/31TCH/2025/02/01/P1\nFSC/31TCH/2025/02/02/P2\n"⟩ :
          QueryOutcome).total_list_products.Nodup := by
  have hwf : ∀ pT ∈ ["FSC"], ∀ tile ∈ ["31TCH"], ∀ o ∈ demoStore,
      isPref (pT ++ "/" ++ tile) o.key = true → keyOk pT tile o.key := by
    intro pT hpT tile htile o ho _
    simp only [List.mem_singleton] at hpT htile
    subst hpT
    subst htile
    simp only [demoStore, List.mem_cons, List.not_mem_nil, or_false] at ho
    rcases ho with rfl | rfl | rfl
    · exact Or.inl ⟨⟨2025, 2, 1⟩, ("P1/a.tif" : String).data, by decide, by decide⟩
    · exact Or.inl ⟨⟨2025, 2, 2⟩, ("P2/b.tif" : String).data, by decide, by decide⟩
    · exact Or.inl ⟨⟨2025, 2, 4⟩, ("P3/c.tif" : String).data, by decide, by decide⟩
  refine ⟨by decide, ?_⟩
  exact c7_distinct_artifact_lines demoStore ["FSC"] ["31TCH"]
    ⟨2025, 2, 1⟩ ⟨2025, 2, 3⟩ _ (by decide) (by decide) (by decide) (by decide)
    hwf (by decide)

/-- **C9** Persisting a QueryResult (one product directory per line) and
reading it back through the Download Executor's parsing (strip whitespace,
drop blanks) restores the very same list of product directories — in
particular the same set, order-insensitively — for lines that are nonempty,
newline-free and whitespace-clean, as catalog-derived product directories
are. -/
theorem c9_artifact_roundtrip (lines : List String)
    (h : ∀ l ∈ lines, l ≠ "" ∧ '\n' ∉ l.data ∧ pyStrip l = l) :
    readArtifact (writeArtifact lines) = lines ∧
    ∀ p, (p ∈ readArtifact (writeArtifact lines) ↔ p ∈ lines) := by
  have heq := readArtifact_writeArtifact lines h
  exact ⟨heq, fun p => by rw [heq]⟩

/-- Witness for C9: round-trip of the specification's example artifact. -/
theorem c9_artifact_roundtrip_witness :
    readArtifact (writeArtifact
      ["FSC/31TCH/2025/02/01/P1", "FSC/31TCH/2025/02/02/P2"]) =
      ["FSC/31TCH/2025/02/01/P1", "FSC/31TCH/2025/02/02/P2"] :=
  (c9_artifact_roundtrip
    ["FSC/31TCH/2025/02/01/P1", "FSC/31TCH/2025/02/02/P2"] (by decide)).1

/-- **C10** Every identifier returned by `validate_tile_format` is exactly
the five-character match — two digits then three uppercase letters — so it
never begins with `T` (its first character is a digit), uppercasing leaves
it unchanged, and on a six-character input the leading `T` was stripped:
the input is `'T'` followed by the returned identifier. -/
theorem c10_tile_identifier_shape (s m : String)
    (h : validate_tile_format s = .ok m) :
    m.length = 5 ∧
    (∃ c0 c1 c2 c3 c4, m.data = [c0, c1, c2, c3, c4] ∧
      c0.isDigit = true ∧ c1.isDigit = true ∧
      ('A' ≤ c2 ∧ c2 ≤ 'Z') ∧ ('A' ≤ c3 ∧ c3 ≤ 'Z') ∧ ('A' ≤ c4 ∧ c4 ≤ 'Z')) ∧
    m.data.head? ≠ some 'T' ∧ pyUpper m = m ∧
    (s.length = 6 → s.data = 'T' :: m.data) := by
  unfold validate_tile_format at h
  cases hres : reSearchTile s.data with
  | none => rw [hres] at h; exact absurd h (by simp)
  | some m' =>
    rw [hres] at h
    have h' : (if (decide (s.length = 6) && decide (s.data.head? = some 'T')
        || decide (s.length = 5)) = true then
          (Except.ok (⟨m'⟩ : String) : Except ExitArg String)
        else .error (.int (-2))) = .ok m := h
    clear h
    by_cases hcond : (decide (s.length = 6) && decide (s.data.head? = some 'T')
        || decide (s.length = 5)) = true
    · rw [if_pos hcond] at h'
      have hm : m = ⟨m'⟩ := (Option.some_inj.mp
        (congrArg (fun e => match e with
          | Except.ok v => some v
          | Except.error _ => none) h')).symm
      obtain ⟨c0, c1, c2, c3, c4, rfl, ht⟩ := reSearchTile_shape s.data m' hres
      have htu := ht
      unfold tileAt at htu
      simp only [Bool.and_eq_true, decide_eq_true_eq] at htu
      obtain ⟨⟨⟨⟨h0, h1⟩, h2⟩, h3⟩, h4⟩ := htu
      have hd : m.data = [c0, c1, c2, c3, c4] := by rw [hm]
      refine ⟨by rw [String.length, hd]; rfl,
        ⟨c0, c1, c2, c3, c4, hd, h0, h1, h2, h3, h4⟩, ?_, ?_, ?_⟩
      · rw [hd]
        intro hc
        have hcT : c0 = 'T' := by simpa using hc
        rw [hcT] at h0
        exact absurd h0 (by decide)
      · rw [hm]
        exact pyUpper_tile _ _ _ _ _ ht
      · intro h6
        have hcond' : s.data.head? = some 'T' := by
          simp only [Bool.or_eq_true, Bool.and_eq_true, decide_eq_true_eq] at hcond
          rcases hcond with hc | hc
          · exact hc.2
          · exact absurd hc (by omega)
        obtain ⟨a0, rest0, ha0⟩ : ∃ a0 rest0, s.data = a0 :: rest0 := by
          cases hsd : s.data with
          | nil =>
            rw [hsd] at hcond'
            exact absurd hcond' (by simp)
          | cons a r => exact ⟨a, r, rfl⟩
        have haT : a0 = 'T' := by
          rw [ha0] at hcond'
          simpa using hcond'
        have hlen : rest0.length = 5 := by
          have h6' := h6
          rw [String.length, ha0] at h6'
          simpa using h6'
        obtain ⟨a1, a2, a3, a4, a5, hrest⟩ :
            ∃ a1 a2 a3 a4 a5, rest0 = [a1, a2, a3, a4, a5] := by
          rcases rest0 with _ | ⟨a1, _ | ⟨a2, _ | ⟨a3, _ | ⟨a4, _ | ⟨a5, rr⟩⟩⟩⟩⟩ <;>
            simp only [List.length_cons, List.length_nil] at hlen
          · omega
          · omega
          · omega
          · omega
          · omega
          · exact ⟨a1, a2, a3, a4, a5, by
              have : rr = [] := List.length_eq_zero.mp (by omega)
              rw [this]⟩
        have hTfalse : tileAt 'T' a1 a2 a3 a4 = false := by
          unfold tileAt
          have : ('T' : Char).isDigit = false := by decide
          rw [this]
          rfl
        have hres6 : reSearchTile s.data = reSearchTile [a1, a2, a3, a4, a5] := by
          rw [ha0, haT, hrest]
          show reSearchTile ('T' :: a1 :: a2 :: a3 :: a4 :: a5 :: []) = _
          unfold reSearchTile
          rw [if_neg (by rw [hTfalse]; exact Bool.false_ne_true)]
          rfl
        rw [hres6] at hres
        have hfin : [a1, a2, a3, a4, a5] = [c0, c1, c2, c3, c4] := by
          unfold reSearchTile at hres
          by_cases hta : tileAt a1 a2 a3 a4 a5 = true
          · rw [if_pos hta] at hres
            exact Option.some_inj.mp hres
          · rw [if_neg hta] at hres
            exact absurd hres (by simp [reSearchTile])
        rw [ha0, haT, hrest, hfin, hd]
    · rw [if_neg hcond] at h'
      exact absurd h' (by simp)

/-- Witness for C10: a six-character input accepted by the validator, whose
leading `T` is stripped from the returned five-character identifier. -/
theorem c10_tile_identifier_shape_witness :
    validate_tile_format "T31TCH" = .ok "31TCH" ∧
    (("T31TCH" : String).length = 6 →
      ("T31TCH" : String).data = 'T' :: ("31TCH" : String).data) :=
  ⟨by decide, (c10_tile_identifier_shape "T31TCH" "31TCH" (by decide)).2.2.2.2⟩
